import Mathlib

/-!
Verification of the `ct` symbol-indexing daemon against its specification.

This file gives a shallow embedding, in Lean, of the parts of the Rust
sources that the checked claims are about:

* `ct-core` identity hashing (`compute_symbol_id` input assembly),
* the `ct-db` symbol store (row encoding, queries, schema check),
* the `ct-indexer` pipeline (transaction discipline, status detection),
* the `ct-indexer` file watcher (filtering, sort, dedup),
* the `ct-daemon` request handlers (dispatch, envelopes, query log).

Machine integers are modelled as `Nat` (all values involved stay far below
the `u32`/`i64` ranges, and no arithmetic that could overflow is performed
on them in the modelled code paths).  External library calls (blake3,
chrono, the filesystem) are modelled as explicit function arguments or as
the byte sequences fed to them, never as stubs that hide modelled logic.
-/

namespace Ct

/- ## Byte-level utilities shared by several components -/

/-- UTF-8 encoding of a single character, as the list of its byte values.
Mirrors the encoding Rust uses for `str::as_bytes`. -/
def charUtf8 (c : Char) : List Nat :=
  let n := c.toNat
  if n < 0x80 then [n]
  else if n < 0x800 then [0xC0 + n / 64, 0x80 + n % 64]
  else if n < 0x10000 then
    [0xE0 + n / 4096, 0x80 + (n / 64) % 64, 0x80 + n % 64]
  else
    [0xF0 + n / 262144, 0x80 + (n / 4096) % 64, 0x80 + (n / 64) % 64, 0x80 + n % 64]

/-- UTF-8 bytes of a string, as produced by Rust `str::as_bytes`. -/
def utf8Bytes (s : String) : List Nat :=
  (s.data.map charUtf8).flatten

/-- Little-endian byte encoding of a `u32` value, as produced by Rust
`u32::to_le_bytes`. -/
def leBytes32 (n : Nat) : List Nat :=
  [n % 256, n / 256 % 256, n / 65536 % 256, n / 16777216 % 256]

/-- One lowercase hexadecimal digit. -/
def hexDigit (n : Nat) : Char :=
  if n < 10 then Char.ofNat ('0'.toNat + n) else Char.ofNat ('a'.toNat + (n - 10))

/-- Lowercase hex encoding of a byte list, as produced by the Rust
`hex::encode` function. -/
def hexEncode (bytes : List Nat) : String :=
  String.mk ((bytes.map (fun b => [hexDigit (b / 16), hexDigit (b % 16)])).flatten)

/-- Whether `needle` occurs at the start of `hay`. -/
def startsWithSeq (needle hay : List Char) : Bool :=
  match needle, hay with
  | [], _ => true
  | _ :: _, [] => false
  | a :: as, b :: bs => a = b && startsWithSeq as bs

/-- Whether `needle` occurs as a contiguous subsequence of `hay`.
Mirrors Rust `str::contains` for literal patterns. -/
def containsSeq (needle hay : List Char) : Bool :=
  match hay with
  | [] => needle.isEmpty
  | _ :: rest => startsWithSeq needle hay || containsSeq needle rest

/-- ASCII lowercasing of one character, as done by SQLite `LIKE` (which is
case-insensitive for ASCII only). -/
def asciiLower (c : Char) : Char :=
  if 'A' ≤ c ∧ c ≤ 'Z' then Char.ofNat (c.toNat + 32) else c

/-- ASCII lowercasing of a character list. -/
def lowerSeq (l : List Char) : List Char := l.map asciiLower

/-- Decidable equality for `Except` results (used to evaluate the model
on concrete inputs). -/
instance {ε α : Type} [DecidableEq ε] [DecidableEq α] : DecidableEq (Except ε α) := fun x y =>
  match x, y with
  | .ok a, .ok b =>
    if h : a = b then .isTrue (by rw [h])
    else .isFalse (by intro hc; cases hc; exact h rfl)
  | .ok _, .error _ => .isFalse (by intro hc; cases hc)
  | .error _, .ok _ => .isFalse (by intro hc; cases hc)
  | .error a, .error b =>
    if h : a = b then .isTrue (by rw [h])
    else .isFalse (by intro hc; cases hc; exact h rfl)

/- ## ct-core: identity and hashing (src/libs/ct-core/src/lib.rs) -/

/-- `TOOL_FINGERPRINT` constant from ct-core. -/
def TOOL_FINGERPRINT : String := "ct-v0.1.0"

/-- The exact byte sequence fed to the blake3 hasher by
`compute_symbol_id(def_path, kind, file_digest, span_start, span_end)`:
the concatenation of the tool fingerprint, `def_path`, `kind`,
`file_digest` and the little-endian bytes of the two span fields, in the
order of the `hasher.update` calls in the source. -/
def compute_symbol_id_input (def_path kind file_digest : String)
    (span_start span_end : Nat) : List Nat :=
  utf8Bytes TOOL_FINGERPRINT ++ utf8Bytes def_path ++ utf8Bytes kind ++
    utf8Bytes file_digest ++ leBytes32 span_start ++ leBytes32 span_end

/-- `compute_symbol_id`, parameterised by the external blake3 function
`h16hex` (blake3 truncated to 16 bytes and hex-encoded, applied to the
hasher input bytes). -/
def compute_symbol_id (h16hex : List Nat → String)
    (def_path kind file_digest : String) (span_start span_end : Nat) : String :=
  h16hex (compute_symbol_id_input def_path kind file_digest span_start span_end)

/-- The byte sequence actually hashed for a symbol id by
`Indexer::extract_symbol`: the source passes `span.filename` (the file
path string) as the `file_digest` argument of `compute_symbol_id`. -/
def extract_symbol_id_input (path kind filename : String)
    (span_start span_end : Nat) : List Nat :=
  compute_symbol_id_input path kind filename span_start span_end

/- ## ct-core: data model (src/libs/ct-core/src/models.rs) -/

/-- `SymbolKind` from ct-core models. -/
inductive SymbolKind where
  | module | struct' | enum' | trait' | fn' | method
  | field | variant | typeAlias | const' | static' | impl'
deriving DecidableEq, Repr

/-- `SymbolKind::as_str`. -/
def SymbolKind.as_str : SymbolKind → String
  | .module => "module"
  | .struct' => "struct"
  | .enum' => "enum"
  | .trait' => "trait"
  | .fn' => "fn"
  | .method => "method"
  | .field => "field"
  | .variant => "variant"
  | .typeAlias => "type_alias"
  | .const' => "const"
  | .static' => "static"
  | .impl' => "impl"

/-- `Visibility` from ct-core models. -/
inductive Visibility where
  | public | private'
deriving DecidableEq, Repr

/-- `Visibility::as_str`. -/
def Visibility.as_str : Visibility → String
  | .public => "public"
  | .private' => "private"

/-- `ImplementationStatus` from ct-core models. -/
inductive ImplementationStatus where
  | implemented | unimplemented | todo'
deriving DecidableEq, Repr

/-- `ImplementationStatus::as_str`. -/
def ImplementationStatus.as_str : ImplementationStatus → String
  | .implemented => "implemented"
  | .unimplemented => "unimplemented"
  | .todo' => "todo"

/-- The `Symbol` struct from ct-core models. -/
structure Symbol where
  symbol_id : String
  crate_id : Int
  file_id : Int
  path : String
  name : String
  kind : SymbolKind
  visibility : Visibility
  signature : String
  docs : Option String
  status : ImplementationStatus
  span_start : Nat
  span_end : Nat
  def_hash : String
deriving DecidableEq, Repr

end Ct

/- ## Claim C1 -/

namespace Ct

/-- The file digest stored for the file of the example symbol below:
`compute_file_digest` always produces a string of the form
`blake3:<hex>` (or the sentinel `missing`), never a file path. -/
def exampleStoredDigest : String :=
  "blake3:9f64a747e1b97f131fabb6b447296c9b6f0201e79fb3c5356e6c77e89b6a806a"

end Ct

/-- C1: For a Symbol row produced by an indexing cycle, recomputing the
symbol id per the spec hashes
`tool_fingerprint ∥ canonical_path ∥ kind ∥ file_digest ∥ span_le` with
the stored file digest, but `Indexer::extract_symbol` feeds
`span.filename` into the `file_digest` slot of `compute_symbol_id`.  At a
concrete indexed symbol the two blake3 inputs differ, so the recomputed
id does not match the stored one (blake3 being collision-free on these
short distinct inputs).  The claim fails on the code: this is a slip —
the parameter of `compute_symbol_id` is named `file_digest`, and the real
digest is computed two lines above the call and stored in the `files`
table, yet the filename string is hashed instead. -/
theorem C1_symbol_id_hashes_filename_not_digest :
    Ct.extract_symbol_id_input "crate_a::add" "fn" "src/lib.rs" 1 3 ≠
      Ct.compute_symbol_id_input "crate_a::add" "fn" Ct.exampleStoredDigest 1 3 := by
  decide

namespace Ct

/- ## Three-way comparison machinery (used for ORDER BY and Vec sort) -/

/-- Three-way comparison derived from a linear order, mirroring byte-wise
and integer comparison in SQLite and Rust. -/
def cmpOfOrd {α : Type} [LinearOrder α] (a b : α) : Ordering :=
  if a < b then .lt else if b < a then .gt else .eq

/-- Lexicographic three-way comparison of lists, mirroring Rust slice and
iterator ordering. -/
def cmpList {α : Type} (cmp : α → α → Ordering) : List α → List α → Ordering
  | [], [] => .eq
  | [], _ :: _ => .lt
  | _ :: _, [] => .gt
  | a :: as, b :: bs => (cmp a b).then (cmpList cmp as bs)

/-- Pair comparison: first component, then second. -/
def cmpProd {α β : Type} (cmpa : α → α → Ordering) (cmpb : β → β → Ordering)
    (x y : α × β) : Ordering :=
  (cmpa x.1 y.1).then (cmpb x.2 y.2)

/-- Laws making a three-way comparison an order isomorphic presentation of
a linear order. -/
structure LawfulCmp {α : Type} (cmp : α → α → Ordering) : Prop where
  eq_iff : ∀ a b, cmp a b = .eq ↔ a = b
  swap_eq : ∀ a b, (cmp a b).swap = cmp b a
  lt_trans : ∀ a b c, cmp a b = .lt → cmp b c = .lt → cmp a c = .lt

theorem then_eq_lt {a b : Ordering} : a.then b = .lt ↔ a = .lt ∨ (a = .eq ∧ b = .lt) := by
  cases a <;> simp [Ordering.then]

theorem then_eq_eq {a b : Ordering} : a.then b = .eq ↔ a = .eq ∧ b = .eq := by
  cases a <;> simp [Ordering.then]

theorem swap_then (a b : Ordering) : (a.then b).swap = a.swap.then b.swap := by
  cases a <;> simp [Ordering.then, Ordering.swap]

theorem cmpOfOrd_eq_lt {α : Type} [LinearOrder α] (a b : α) :
    cmpOfOrd a b = .lt ↔ a < b := by
  unfold cmpOfOrd
  rcases lt_trichotomy a b with h | h | h
  · simp [h]
  · simp [h, lt_irrefl]
  · simp [not_lt_of_gt h, h, not_lt_of_gt]

theorem cmpOfOrd_eq_eq {α : Type} [LinearOrder α] (a b : α) :
    cmpOfOrd a b = .eq ↔ a = b := by
  unfold cmpOfOrd
  rcases lt_trichotomy a b with h | h | h
  · simp [h, ne_of_lt h]
  · simp [h, lt_irrefl]
  · simp [not_lt_of_gt h, h, ne_of_gt h]

theorem lawful_cmpOfOrd {α : Type} [LinearOrder α] :
    LawfulCmp (cmpOfOrd (α := α)) := by
  refine ⟨cmpOfOrd_eq_eq, ?_, ?_⟩
  · intro a b
    unfold cmpOfOrd
    rcases lt_trichotomy a b with h | h | h
    · simp [h, not_lt_of_gt h, Ordering.swap]
    · simp [h, lt_irrefl, Ordering.swap]
    · simp [h, not_lt_of_gt h, Ordering.swap]
  · intro a b c hab hbc
    exact (cmpOfOrd_eq_lt a c).2
      (lt_trans ((cmpOfOrd_eq_lt a b).1 hab) ((cmpOfOrd_eq_lt b c).1 hbc))

theorem cmpList_eq_iff {α : Type} {cmp : α → α → Ordering} (h : LawfulCmp cmp) :
    ∀ a b, cmpList cmp a b = .eq ↔ a = b
  | [], [] => by simp [cmpList]
  | [], _ :: _ => by simp [cmpList]
  | _ :: _, [] => by simp [cmpList]
  | a :: as, b :: bs => by
    simp [cmpList, then_eq_eq, h.eq_iff, cmpList_eq_iff h as bs]

theorem cmpList_swap {α : Type} {cmp : α → α → Ordering} (h : LawfulCmp cmp) :
    ∀ a b, (cmpList cmp a b).swap = cmpList cmp b a
  | [], [] => by simp [cmpList, Ordering.swap]
  | [], _ :: _ => by simp [cmpList, Ordering.swap]
  | _ :: _, [] => by simp [cmpList, Ordering.swap]
  | a :: as, b :: bs => by
    simp [cmpList, swap_then, h.swap_eq, cmpList_swap h as bs]

theorem cmpList_lt_trans {α : Type} {cmp : α → α → Ordering} (h : LawfulCmp cmp) :
    ∀ a b c, cmpList cmp a b = .lt → cmpList cmp b c = .lt → cmpList cmp a c = .lt := by
  intro a
  induction a with
  | nil =>
    intro b c hab hbc
    cases b with
    | nil => simp [cmpList] at hab
    | cons y ys =>
      cases c with
      | nil => simp [cmpList] at hbc
      | cons z zs => simp [cmpList]
  | cons x xs ih =>
    intro b c hab hbc
    cases b with
    | nil => simp [cmpList] at hab
    | cons y ys =>
      cases c with
      | nil => simp [cmpList] at hbc
      | cons z zs =>
        simp only [cmpList] at hab hbc ⊢
        rw [then_eq_lt] at hab hbc ⊢
        rcases hab with h1 | ⟨h1, h1r⟩
        · rcases hbc with h2 | ⟨h2, _⟩
          · exact Or.inl (h.lt_trans x y z h1 h2)
          · have : y = z := (h.eq_iff y z).1 h2
            exact Or.inl (this ▸ h1)
        · have hxy : x = y := (h.eq_iff x y).1 h1
          subst hxy
          rcases hbc with h2 | ⟨h2, h2r⟩
          · exact Or.inl h2
          · exact Or.inr ⟨h2, ih ys zs h1r h2r⟩

theorem lawful_cmpList {α : Type} {cmp : α → α → Ordering}
    (h : LawfulCmp cmp) : LawfulCmp (cmpList cmp) :=
  ⟨cmpList_eq_iff h, cmpList_swap h, cmpList_lt_trans h⟩

theorem lawful_cmpProd {α β : Type} {cmpa : α → α → Ordering} {cmpb : β → β → Ordering}
    (ha : LawfulCmp cmpa) (hb : LawfulCmp cmpb) : LawfulCmp (cmpProd cmpa cmpb) := by
  constructor
  · rintro ⟨a1, a2⟩ ⟨b1, b2⟩
    simp [cmpProd, then_eq_eq, ha.eq_iff, hb.eq_iff]
  · rintro ⟨a1, a2⟩ ⟨b1, b2⟩
    simp [cmpProd, swap_then, ha.swap_eq, hb.swap_eq]
  · rintro ⟨a1, a2⟩ ⟨b1, b2⟩ ⟨c1, c2⟩ hab hbc
    simp only [cmpProd] at hab hbc ⊢
    rw [then_eq_lt] at hab hbc ⊢
    rcases hab with h1 | ⟨h1, h1r⟩
    · rcases hbc with h2 | ⟨h2, _⟩
      · exact Or.inl (ha.lt_trans a1 b1 c1 h1 h2)
      · have : b1 = c1 := (ha.eq_iff b1 c1).1 h2
        exact Or.inl (this ▸ h1)
    · have : a1 = b1 := (ha.eq_iff a1 b1).1 h1
      subst this
      rcases hbc with h2 | ⟨h2, h2r⟩
      · exact Or.inl h2
      · exact Or.inr ⟨h2, hb.lt_trans a2 b2 c2 h1r h2r⟩

/-- The non-strict order induced by a three-way comparison. -/
def cmpLe {α : Type} (cmp : α → α → Ordering) (a b : α) : Prop :=
  cmp a b ≠ .gt

theorem cmpLe_total {α : Type} {cmp : α → α → Ordering} (h : LawfulCmp cmp)
    (a b : α) : cmpLe cmp a b ∨ cmpLe cmp b a := by
  unfold cmpLe
  rcases hab : cmp a b with _ | _ | _
  · left; simp
  · left; simp
  · right
    have hs := h.swap_eq a b
    rw [hab] at hs
    simp [Ordering.swap] at hs
    simp [← hs]

theorem cmpLe_trans {α : Type} {cmp : α → α → Ordering} (h : LawfulCmp cmp)
    {a b c : α} (hab : cmpLe cmp a b) (hbc : cmpLe cmp b c) : cmpLe cmp a c := by
  unfold cmpLe at *
  rcases h1 : cmp a b with _ | _ | _
  · rcases h2 : cmp b c with _ | _ | _
    · rw [h.lt_trans a b c h1 h2]; simp
    · have : b = c := (h.eq_iff b c).1 h2
      rw [← this, h1]; simp
    · exact absurd h2 hbc
  · have : a = b := (h.eq_iff a b).1 h1
    subst this
    exact hbc
  · exact absurd h1 hab

theorem cmpLe_antisymm {α : Type} {cmp : α → α → Ordering} (h : LawfulCmp cmp)
    {a b : α} (hab : cmpLe cmp a b) (hba : cmpLe cmp b a) : a = b := by
  unfold cmpLe at *
  rcases h1 : cmp a b with _ | _ | _
  · have hs := h.swap_eq a b
    rw [h1] at hs
    simp [Ordering.swap] at hs
    exact absurd hs.symm hba
  · exact (h.eq_iff a b).1 h1
  · exact absurd h1 hab

/-- Byte-wise three-way comparison of strings (SQLite BINARY collation and
Rust `str` ordering agree on it for the ASCII data involved). -/
def strCmp (a b : String) : Ordering := cmpList cmpOfOrd a.data b.data

theorem lawful_strCmp : LawfulCmp strCmp := by
  have h := lawful_cmpList (lawful_cmpOfOrd (α := Char))
  constructor
  · intro a b
    unfold strCmp
    rw [h.eq_iff]
    constructor
    · intro hd; cases a; cases b; simp_all
    · intro hd; rw [hd]
  · intro a b; exact h.swap_eq a.data b.data
  · intro a b c; exact h.lt_trans a.data b.data c.data

end Ct

namespace Ct

/- ## ct-db: symbol store (src/libs/ct-db) -/

/-- A row of the `symbols` table, with each column holding exactly the
value bound by `Database::insert_symbol`: in particular `symbol_id_blob`
is a BLOB holding `symbol.symbol_id.as_bytes()` — the UTF-8 bytes of the
hex string — and the enum columns hold the `as_str` renderings. -/
structure SymbolRow where
  symbol_id_blob : List Nat
  crate_id : Int
  file_id : Int
  path : String
  name : String
  kind : String
  visibility : String
  signature : String
  docs : Option String
  status : String
  span_start : Nat
  span_end : Nat
  def_hash : String
deriving DecidableEq, Repr

/-- The row written by `Database::insert_symbol` for a `Symbol`. -/
def symbolRowOf (s : Symbol) : SymbolRow :=
  { symbol_id_blob := utf8Bytes s.symbol_id
    crate_id := s.crate_id
    file_id := s.file_id
    path := s.path
    name := s.name
    kind := s.kind.as_str
    visibility := s.visibility.as_str
    signature := s.signature
    docs := s.docs
    status := s.status.as_str
    span_start := s.span_start
    span_end := s.span_end
    def_hash := s.def_hash }

/-- `Database::insert_symbol`: appends one row to the `symbols` table. -/
def insert_symbol (s : Symbol) (rows : List SymbolRow) : List SymbolRow :=
  rows ++ [symbolRowOf s]

/-- `parse_symbol_kind` from ct-db queries (default fallback Module). -/
def parse_symbol_kind (s : String) : SymbolKind :=
  if s == "module" then .module
  else if s == "struct" then .struct'
  else if s == "enum" then .enum'
  else if s == "trait" then .trait'
  else if s == "fn" then .fn'
  else if s == "method" then .method
  else if s == "field" then .field
  else if s == "variant" then .variant
  else if s == "type_alias" then .typeAlias
  else if s == "const" then .const'
  else if s == "static" then .static'
  else if s == "impl" then .impl'
  else .module

/-- `parse_visibility` from ct-db queries (default fallback Private). -/
def parse_visibility (s : String) : Visibility :=
  if s == "public" then .public
  else if s == "private" then .private'
  else .private'

/-- `parse_status` from ct-db queries (default fallback Implemented). -/
def parse_status (s : String) : ImplementationStatus :=
  if s == "implemented" then .implemented
  else if s == "unimplemented" then .unimplemented
  else if s == "todo" then .todo'
  else .implemented

/-- How both query functions in ct-db map a `symbols` row back to a
`Symbol` value: every column is read back directly except `symbol_id`,
which is produced as `hex::encode` of the BLOB bytes. -/
def decodeSymbolRow (r : SymbolRow) : Symbol :=
  { symbol_id := hexEncode r.symbol_id_blob
    crate_id := r.crate_id
    file_id := r.file_id
    path := r.path
    name := r.name
    kind := parse_symbol_kind r.kind
    visibility := parse_visibility r.visibility
    signature := r.signature
    docs := r.docs
    status := parse_status r.status
    span_start := r.span_start
    span_end := r.span_end
    def_hash := r.def_hash }

/-- `find_symbol_by_path`: exact match on the `path` column, first row. -/
def find_symbol_by_path (rows : List SymbolRow) (path : String) : Option Symbol :=
  (rows.find? (fun r => r.path == path)).map decodeSymbolRow

/-- The key compared by `ORDER BY name, path, span_start` (BINARY column
collation on the text columns). -/
def rowKey (r : SymbolRow) : String × String × Nat := (r.name, r.path, r.span_start)

/-- Three-way comparison of ORDER BY keys. -/
def rowKeyCmp : String × String × Nat → String × String × Nat → Ordering :=
  cmpProd strCmp (cmpProd strCmp (cmpOfOrd (α := Nat)))

theorem lawful_rowKeyCmp : LawfulCmp rowKeyCmp :=
  lawful_cmpProd lawful_strCmp (lawful_cmpProd lawful_strCmp lawful_cmpOfOrd)

/-- The sort relation used to model the ORDER BY of
`find_symbols_by_name`. -/
def rowOrderLe (a b : SymbolRow) : Prop := cmpLe rowKeyCmp (rowKey a) (rowKey b)

instance : DecidableRel rowOrderLe := fun a b => by
  unfold rowOrderLe cmpLe
  infer_instance

instance : IsTotal SymbolRow rowOrderLe :=
  ⟨fun a b => cmpLe_total lawful_rowKeyCmp (rowKey a) (rowKey b)⟩

instance : IsTrans SymbolRow rowOrderLe :=
  ⟨fun _ _ _ hab hbc => cmpLe_trans lawful_rowKeyCmp hab hbc⟩

/-- `find_symbols_by_name`: case-insensitive substring match on `name`
(SQLite `LIKE` with wildcards on both sides), optional equality filters
for kind, visibility (skipped when the value is the string all) and
status, ordered by `(name, path, span_start)` and limited. -/
def find_symbols_by_name (rows : List SymbolRow) (name : String)
    (kind vis status : Option String) (limit : Nat) : List Symbol :=
  let filtered := rows.filter (fun r =>
    containsSeq (lowerSeq name.data) (lowerSeq r.name.data) &&
    (match kind with | none => true | some k => r.kind == k) &&
    (match vis with | none => true | some v => v == "all" || r.visibility == v) &&
    (match status with | none => true | some s => r.status == s))
  ((List.insertionSort rowOrderLe filtered).take limit).map decodeSymbolRow

/-- `StatusCounts` from ct-core models. -/
structure StatusCounts where
  total : Nat
  implemented : Nat
  unimplemented : Nat
  todo : Nat
deriving DecidableEq, Repr

/-- `StatusItem` from ct-core models. -/
structure StatusItem where
  path : String
  status : ImplementationStatus
  kind : SymbolKind
deriving DecidableEq, Repr

/-- The visibility WHERE clause shared by the status queries: filter only
when a visibility other than the string all is given. -/
def visPred (vis : Option String) (r : SymbolRow) : Bool :=
  match vis with
  | none => true
  | some v => v == "all" || r.visibility == v

/-- `get_status_counts` from ct-db queries. -/
def get_status_counts (rows : List SymbolRow) (vis : Option String) : StatusCounts :=
  let base := rows.filter (visPred vis)
  { total := base.length
    implemented := (base.filter (fun r => r.status == "implemented")).length
    unimplemented := (base.filter (fun r => r.status == "unimplemented")).length
    todo := (base.filter (fun r => r.status == "todo")).length }

/-- Row comparison for `ORDER BY path`. -/
def rowPathLe (a b : SymbolRow) : Prop := cmpLe strCmp a.path b.path

instance : DecidableRel rowPathLe := fun a b => by
  unfold rowPathLe cmpLe
  infer_instance

instance : IsTotal SymbolRow rowPathLe :=
  ⟨fun a b => cmpLe_total lawful_strCmp a.path b.path⟩

instance : IsTrans SymbolRow rowPathLe :=
  ⟨fun _ _ _ hab hbc => cmpLe_trans lawful_strCmp hab hbc⟩

/-- `get_status_items` from ct-db queries: visibility filter, the status
predicate matrix on the two flags, `ORDER BY path`, `LIMIT`. -/
def get_status_items (rows : List SymbolRow) (vis : Option String)
    (unimplemented todo : Bool) (limit : Nat) : List StatusItem :=
  let filtered := rows.filter (fun r =>
    visPred vis r &&
    (if unimplemented && !todo then r.status == "unimplemented"
     else if todo && !unimplemented then r.status == "todo"
     else if unimplemented && todo then r.status == "unimplemented" || r.status == "todo"
     else true))
  ((List.insertionSort rowPathLe filtered).take limit).map
    (fun r => { path := r.path, status := parse_status r.status, kind := parse_symbol_kind r.kind })

end Ct

namespace Ct

/- ## ct-db: schema versioning (migrations.rs, Database::ensure_schema) -/

/-- `CURRENT_VERSION` from ct-db migrations. -/
def CURRENT_VERSION : Nat := 1

/-- The store metadata state relevant to `ensure_schema`: the `meta`
key/value table (absent on a brand-new file) and whether the V1 tables
have been created. -/
structure StoreMeta where
  metaTable : Option (List (String × String))
  tablesCreated : Bool
deriving DecidableEq, Repr

/-- Errors surfaced by the modelled `ensure_schema` path. -/
inductive DbErr where
  | schemaMismatch (expected found : String)
deriving DecidableEq, Repr

/-- Rust `str::parse::<u32>`: optional leading plus sign, then one or
more ASCII digits, rejecting overflow past the u32 range. -/
def parseU32 (s : String) : Option Nat :=
  let body := match s.data with
    | '+' :: rest => rest
    | l => l
  if body.isEmpty then none
  else if body.all (fun c => decide ('0' ≤ c ∧ c ≤ '9')) then
    let v := body.foldl (fun acc c => acc * 10 + (c.toNat - '0'.toNat)) 0
    if v < 4294967296 then some v else none
  else none

/-- Lookup in the `meta` table by key. -/
def metaLookup (kvs : List (String × String)) (k : String) : Option String :=
  (kvs.find? (fun p => p.1 == k)).map (fun p => p.2)

/-- `Database::get_schema_version`: 0 when the meta table does not exist,
when the key is absent, or when the value does not parse as a u32. -/
def get_schema_version (st : StoreMeta) : Nat :=
  match st.metaTable with
  | none => 0
  | some kvs =>
    match metaLookup kvs "schema_version" with
    | none => 0
    | some v => (parseU32 v).getD 0

/-- SQLite `INSERT OR REPLACE` on the `meta` table primary key. -/
def insertOrReplace (kvs : List (String × String)) (k v : String) :
    List (String × String) :=
  (kvs.filter (fun p => !(p.1 == k))) ++ [(k, v)]

/-- `Database::set_schema_version` (only reached after the migration has
ensured the meta table exists). -/
def set_schema_version (v : Nat) (st : StoreMeta) : StoreMeta :=
  { st with metaTable := some (insertOrReplace (st.metaTable.getD []) "schema_version" (toString v)) }

/-- `apply_migration(V1_SCHEMA)`: `CREATE TABLE IF NOT EXISTS` for every
table, keeping any existing contents. -/
def apply_v1_schema (st : StoreMeta) : StoreMeta :=
  { metaTable := some (st.metaTable.getD []), tablesCreated := true }

/-- `Database::ensure_schema`, run by `open` after setting pragmas: treat
version 0 as first use (create schema, record version 1); report a
schema mismatch when the version is below `CURRENT_VERSION`; otherwise
leave the store untouched. -/
def ensure_schema (st : StoreMeta) : Except DbErr StoreMeta :=
  let version := get_schema_version st
  if version == 0 then
    .ok (set_schema_version 1 (apply_v1_schema st))
  else if version < CURRENT_VERSION then
    .error (.schemaMismatch (toString CURRENT_VERSION) (toString version))
  else
    .ok st

/-- A concrete example symbol, as the indexing of a small crate would
produce it (the id is a 32-character hex string, as 16 hashed bytes
hex-encode to). -/
def exampleSymbol : Symbol :=
  { symbol_id := "00112233445566778899aabbccddeeff"
    crate_id := 1
    file_id := 1
    path := "crate_a::add"
    name := "add"
    kind := .fn'
    visibility := .public
    signature := "fn add(left, right) -> _"
    docs := none
    status := .implemented
    span_start := 1
    span_end := 3
    def_hash := "deadbeef"
  }

theorem metaLookup_insertOrReplace (kvs : List (String × String)) (k v : String) :
    metaLookup (insertOrReplace kvs k v) k = some v := by
  induction kvs with
  | nil => simp [metaLookup, insertOrReplace, List.find?]
  | cons p rest ih =>
    unfold insertOrReplace at *
    by_cases hk : p.1 = k
    · simp [metaLookup, hk] at ih ⊢
    · simp only [List.filter_cons]
      have : (!(p.1 == k)) = true := by simp [hk]
      rw [this]
      simp only [metaLookup, List.cons_append, List.find?]
      have : (p.1 == k) = false := by simp [hk]
      rw [this]
      exact ih

end Ct

/- ## Claim C2 -/

/-- C2 counterexample: inserting a concrete symbol into a fresh store and
reading it back by path does not return an equal symbol — the stored
blob holds the UTF-8 bytes of the 32-character hex id, and the read path
hex-encodes those bytes again, yielding a different 64-character string. -/
theorem C2_insert_find_roundtrip_counterexample :
    Ct.find_symbol_by_path (Ct.insert_symbol Ct.exampleSymbol []) Ct.exampleSymbol.path ≠
      some Ct.exampleSymbol := by
  decide

theorem parse_symbol_kind_as_str (k : Ct.SymbolKind) :
    Ct.parse_symbol_kind k.as_str = k := by
  cases k <;> rfl

theorem parse_visibility_as_str (v : Ct.Visibility) :
    Ct.parse_visibility v.as_str = v := by
  cases v <;> rfl

theorem parse_status_as_str (s : Ct.ImplementationStatus) :
    Ct.parse_status s.as_str = s := by
  cases s <;> rfl

/-- C2 (amended): inserting a Symbol into a fresh store and querying
`find_symbol_by_path` with its path returns a symbol equal to the
inserted one in every field except `symbol_id`, which comes back as the
hex encoding of the UTF-8 bytes of the inserted id string (so the id
round-trips only when it is empty). -/
theorem C2_insert_find_roundtrip_amended (s : Ct.Symbol) :
    Ct.find_symbol_by_path (Ct.insert_symbol s []) s.path =
      some { s with symbol_id := Ct.hexEncode (Ct.utf8Bytes s.symbol_id) } := by
  unfold Ct.find_symbol_by_path Ct.insert_symbol
  simp only [List.nil_append, List.find?]
  have hpath : ((Ct.symbolRowOf s).path == s.path) = true := by
    simp [Ct.symbolRowOf]
  rw [hpath]
  simp only [Option.map_some]
  cases s
  simp [Ct.decodeSymbolRow, Ct.symbolRowOf, parse_symbol_kind_as_str,
    parse_visibility_as_str, parse_status_as_str]

/- ## Claim C6 -/

namespace Ct

/-- A store file whose meta table records schema version 0: the version
key is present and its value is lower than `CURRENT_VERSION`. -/
def storeAtVersionZero : StoreMeta :=
  { metaTable := some [("schema_version", "0")], tablesCreated := true }

end Ct

/-- C6 counterexample: a store whose `meta.schema_version` is present
and parses to 0, which is lower than the current version 1.  The claim
says `open` must fail with a schema mismatch; `ensure_schema` instead
takes the first-use branch (its test is `version == 0`, and
`get_schema_version` maps the stored string 0 to the integer 0), creates
the schema and records version 1, succeeding. -/
theorem C6_open_lower_version_counterexample :
    Ct.metaLookup [("schema_version", "0")] "schema_version" = some "0" ∧
    Ct.parseU32 "0" = some 0 ∧ 0 < Ct.CURRENT_VERSION ∧
    Ct.ensure_schema Ct.storeAtVersionZero =
      .ok { metaTable := some [("schema_version", "1")], tablesCreated := true } := by
  decide

/-- C6 (amended): with the shipped `CURRENT_VERSION = 1`, `ensure_schema`
never fails — a recorded version of 0 (or an absent or unparsable one) is
treated as first use, creating the schema and recording the current
version, and any version at or above the current one opens successfully
with the meta table left unchanged.  Hence after any successful open the
recorded version is at least the current version, and equals it exactly
when the store was at version 0 or already current. -/
theorem C6_open_schema_version_amended (st : Ct.StoreMeta) :
    (∀ e, Ct.ensure_schema st ≠ .error e) ∧
    ∃ st', Ct.ensure_schema st = .ok st' ∧
      Ct.CURRENT_VERSION ≤ Ct.get_schema_version st' ∧
      (Ct.get_schema_version st = 0 → Ct.get_schema_version st' = Ct.CURRENT_VERSION) ∧
      (Ct.get_schema_version st ≠ 0 → st' = st) := by
  by_cases h : Ct.get_schema_version st = 0
  · have hres : Ct.ensure_schema st =
        .ok (Ct.set_schema_version 1 (Ct.apply_v1_schema st)) := by
      unfold Ct.ensure_schema
      simp [h]
    have hver : Ct.get_schema_version (Ct.set_schema_version 1 (Ct.apply_v1_schema st)) = 1 := by
      unfold Ct.get_schema_version Ct.set_schema_version Ct.apply_v1_schema
      simp only
      rw [Ct.metaLookup_insertOrReplace]
      rfl
    refine ⟨?_, ⟨_, hres, ?_, ?_, ?_⟩⟩
    · intro e he
      rw [hres] at he
      cases he
    · rw [hver]
      decide
    · intro _
      exact hver
    · intro hne
      exact absurd h hne
  · have hge : Ct.CURRENT_VERSION ≤ Ct.get_schema_version st := by
      unfold Ct.CURRENT_VERSION
      omega
    have hres : Ct.ensure_schema st = .ok st := by
      unfold Ct.ensure_schema
      have h1 : (Ct.get_schema_version st == 0) = false := by simp [h]
      simp only [h1]
      have h2 : ¬ (Ct.get_schema_version st < Ct.CURRENT_VERSION) := by omega
      simp [h2]
    refine ⟨?_, ⟨st, hres, hge, ?_, ?_⟩⟩
    · intro e he
      rw [hres] at he
      cases he
    · intro h0
      exact absurd h0 h
    · intro _
      rfl

/-- C6 witness: the amended theorem evaluated at a brand-new store file
(no meta table): open succeeds and records the current version. -/
theorem C6_open_schema_version_witness :
    ∃ st', Ct.ensure_schema { metaTable := none, tablesCreated := false } = .ok st' ∧
      Ct.get_schema_version st' = Ct.CURRENT_VERSION := by
  obtain ⟨_, st', hok, _, hzero, _⟩ :=
    C6_open_schema_version_amended { metaTable := none, tablesCreated := false }
  exact ⟨st', hok, hzero (by decide)⟩

namespace Ct

/- ## ct-indexer: transaction discipline (Indexer::index_workspace) -/

/-- A row-insert issued against the store during indexing (the
`insert_*` methods of `Database`). -/
inductive RowOp where
  | insertCrate (name : String)
  | insertFile (path : String)
  | insertSymbol (path : String)
  | insertImpl (forPath : String)
deriving DecidableEq, Repr

/-- A store operation issued during an index cycle, including the
transaction control statements of `Database`. -/
inductive DbOp where
  | begin'
  | commit
  | rollback
  | row (op : RowOp)
deriving DecidableEq, Repr

/-- One workspace member as `index_crate` experiences it: the member
name, the row inserts performed while processing it (driven by the
external rustdoc output), and, when rustdoc generation, JSON parsing or
a row insert fails, the error that aborts the member after those
inserts. -/
structure MemberRun where
  name : String
  ops : List RowOp
  failure : Option String
deriving DecidableEq, Repr

/-- The store operations `index_crate` issues for one member: the Crate
row insert first, then the inserts for its files, symbols and impls. -/
def index_crate_ops (m : MemberRun) : List DbOp :=
  DbOp.row (RowOp.insertCrate m.name) :: m.ops.map DbOp.row

/-- The loop body of `index_workspace` after `begin_transaction`: index
each member in order; a member failure propagates the error immediately
(the `?` operator), with no further statement executed — in particular
neither `commit_transaction` nor `rollback_transaction` runs; when every
member succeeds, `commit_transaction` runs. -/
def index_workspace_go : List MemberRun → List DbOp → List DbOp × Except String Unit
  | [], acc => (acc ++ [DbOp.commit], .ok ())
  | m :: rest, acc =>
    match m.failure with
    | none => index_workspace_go rest (acc ++ index_crate_ops m)
    | some e => (acc ++ index_crate_ops m, .error e)

/-- `Indexer::index_workspace`: one `BEGIN IMMEDIATE` for the whole
cycle, then the per-member loop. Returns the trace of store operations
actually executed and the overall result. -/
def index_workspace (members : List MemberRun) : List DbOp × Except String Unit :=
  index_workspace_go members [DbOp.begin']

/-- Store-side transaction semantics: committed rows and the pending
transaction, with `BEGIN` opening, `COMMIT` publishing and `ROLLBACK`
discarding the pending row inserts. -/
structure TxState where
  committed : List RowOp
  openTx : Option (List RowOp)
deriving DecidableEq, Repr

/-- Effect of one store operation on the transaction state. -/
def applyOp (st : TxState) : DbOp → TxState
  | .begin' => { st with openTx := some [] }
  | .commit =>
    match st.openTx with
    | some pend => { committed := st.committed ++ pend, openTx := none }
    | none => st
  | .rollback => { st with openTx := none }
  | .row op =>
    match st.openTx with
    | some pend => { st with openTx := some (pend ++ [op]) }
    | none => { st with committed := st.committed ++ [op] }

/-- Run a trace of store operations from a given state. -/
def runOps (ops : List DbOp) (st : TxState) : TxState := ops.foldl applyOp st

/-- The operations executed by the member loop (closed form). -/
def executedOps : List MemberRun → List DbOp
  | [] => [DbOp.commit]
  | m :: rest =>
    match m.failure with
    | none => index_crate_ops m ++ executedOps rest
    | some _ => index_crate_ops m

/-- The result of the member loop (closed form). -/
def runResult : List MemberRun → Except String Unit
  | [] => .ok ()
  | m :: rest =>
    match m.failure with
    | none => runResult rest
    | some e => .error e

theorem index_workspace_go_eq (members : List MemberRun) :
    ∀ acc, index_workspace_go members acc = (acc ++ executedOps members, runResult members) := by
  induction members with
  | nil => intro acc; rfl
  | cons m rest ih =>
    intro acc
    unfold index_workspace_go executedOps runResult
    cases m.failure with
    | none => rw [ih (acc ++ index_crate_ops m), List.append_assoc]
    | some e => rfl

theorem index_workspace_eq (members : List MemberRun) :
    index_workspace members = (DbOp.begin' :: executedOps members, runResult members) := by
  unfold index_workspace
  rw [index_workspace_go_eq]
  rfl

theorem mem_index_crate_ops {op : DbOp} {m : MemberRun}
    (h : op ∈ index_crate_ops m) : ∃ r, op = DbOp.row r := by
  unfold index_crate_ops at h
  rcases List.mem_cons.1 h with heq | hmem
  · exact ⟨_, heq⟩
  · rcases List.mem_map.1 hmem with ⟨r, _, hr⟩
    exact ⟨r, hr.symm⟩

theorem executedOps_rows_or_commit (members : List MemberRun) :
    ∀ op ∈ executedOps members, (∃ r, op = DbOp.row r) ∨ op = DbOp.commit := by
  induction members with
  | nil =>
    intro op hop
    simp [executedOps] at hop
    exact Or.inr hop
  | cons m rest ih =>
    intro op hop
    unfold executedOps at hop
    cases hm : m.failure with
    | none =>
      rw [hm] at hop
      rcases List.mem_append.1 hop with h | h
      · exact Or.inl (mem_index_crate_ops h)
      · exact ih op h
    | some e =>
      rw [hm] at hop
      exact Or.inl (mem_index_crate_ops hop)

theorem executedOps_no_commit_of_failure (members : List MemberRun)
    (h : ∃ m ∈ members, m.failure ≠ none) :
    DbOp.commit ∉ executedOps members ∧ ∀ op ∈ executedOps members, ∃ r, op = DbOp.row r := by
  induction members with
  | nil => rcases h with ⟨m, hm, _⟩; cases hm
  | cons m rest ih =>
    unfold executedOps
    cases hm : m.failure with
    | none =>
      have hrest : ∃ m' ∈ rest, m'.failure ≠ none := by
        rcases h with ⟨m', hm', hf⟩
        rcases List.mem_cons.1 hm' with rfl | hmem
        · exact absurd hm hf
        · exact ⟨m', hmem, hf⟩
      obtain ⟨ihc, ihr⟩ := ih hrest
      constructor
      · intro hc
        rcases List.mem_append.1 hc with hca | hcb
        · obtain ⟨r, hr⟩ := mem_index_crate_ops hca
          cases hr
        · exact ihc hcb
      · intro op hop
        rcases List.mem_append.1 hop with hca | hcb
        · exact mem_index_crate_ops hca
        · exact ihr op hcb
    | some e =>
      constructor
      · intro hc
        obtain ⟨r, hr⟩ := mem_index_crate_ops hc
        cases hr
      · intro op hop
        exact mem_index_crate_ops hop

theorem runResult_error_of_failure (members : List MemberRun)
    (h : ∃ m ∈ members, m.failure ≠ none) :
    ∃ e, runResult members = .error e := by
  induction members with
  | nil => rcases h with ⟨m, hm, _⟩; cases hm
  | cons m rest ih =>
    unfold runResult
    cases hm : m.failure with
    | none =>
      apply ih
      rcases h with ⟨m', hm', hf⟩
      rcases List.mem_cons.1 hm' with rfl | hmem
      · exact absurd hm hf
      · exact ⟨m', hmem, hf⟩
    | some e => exact ⟨e, rfl⟩

theorem runResult_ok_of_all_ok (members : List MemberRun)
    (h : ∀ m ∈ members, m.failure = none) :
    runResult members = .ok () := by
  induction members with
  | nil => rfl
  | cons m rest ih =>
    unfold runResult
    rw [h m (List.mem_cons_self m rest)]
    exact ih (fun m' hm' => h m' (List.mem_cons_of_mem m hm'))

theorem executedOps_getLast_of_all_ok (members : List MemberRun)
    (h : ∀ m ∈ members, m.failure = none) :
    (executedOps members).getLast? = some DbOp.commit := by
  induction members with
  | nil => rfl
  | cons m rest ih =>
    unfold executedOps
    rw [h m (List.mem_cons_self m rest)]
    have htail := ih (fun m' hm' => h m' (List.mem_cons_of_mem m hm'))
    have hne : executedOps rest ≠ [] := by
      intro hc
      rw [hc] at htail
      cases htail
    rw [List.getLast?_append_of_ne_nil _ hne]
    exact htail

theorem runOps_rows_only (ops : List DbOp)
    (h : ∀ op ∈ ops, ∃ r, op = DbOp.row r) :
    ∀ c p, runOps ops ⟨c, some p⟩ =
      ⟨c, some (p ++ (ops.filterMap (fun op => match op with | DbOp.row r => some r | _ => none)))⟩ := by
  induction ops with
  | nil => intro c p; simp [runOps]
  | cons op rest ih =>
    intro c p
    obtain ⟨r, rfl⟩ := h op (List.mem_cons_self op rest)
    unfold runOps at *
    simp only [List.foldl_cons, applyOp]
    rw [ih (fun o ho => h o (List.mem_cons_of_mem _ ho)) c (p ++ [r])]
    simp [List.filterMap_cons]

end Ct

namespace Ct

/-- A workspace member whose rustdoc extraction and row inserts all
succeed. -/
def memberOk : MemberRun :=
  { name := "crate_a"
    ops := [RowOp.insertFile "src/lib.rs", RowOp.insertSymbol "crate_a::add"]
    failure := none }

/-- A workspace member whose rustdoc JSON fails to parse. -/
def memberFailing : MemberRun :=
  { name := "crate_b"
    ops := []
    failure := some "Failed to parse rustdoc JSON for crate crate_b" }

end Ct

/- ## Claim C3 -/

/-- C3 counterexample: an index cycle over two members where the second
fails.  The claim says the transaction is rolled back on any per-crate
failure, but the executed trace of store operations contains no ROLLBACK
at all — `index_workspace` propagates the error with `?`, and the
`rollback_transaction` method is never invoked anywhere in the code. -/
theorem C3_rollback_counterexample :
    (Ct.index_workspace [Ct.memberOk, Ct.memberFailing]).2 =
      .error "Failed to parse rustdoc JSON for crate crate_b" ∧
    Ct.DbOp.rollback ∉ (Ct.index_workspace [Ct.memberOk, Ct.memberFailing]).1 := by
  decide

/-- C3 (amended): `index_workspace` opens exactly one transaction for
the whole cycle and commits it when every member is indexed
successfully.  When any package fails, the error propagates with
neither COMMIT nor ROLLBACK executed: the transaction is simply left
open, so no data from the failed cycle reaches the committed store
state (the committed rows are unchanged and the transaction is still
pending). -/
theorem C3_index_workspace_transaction_amended (members : List Ct.MemberRun)
    (init : List Ct.RowOp) :
    (Ct.index_workspace members).1.head? = some Ct.DbOp.begin' ∧
    (Ct.index_workspace members).1.count Ct.DbOp.begin' = 1 ∧
    ((∀ m ∈ members, m.failure = none) →
      (Ct.index_workspace members).2 = .ok () ∧
      (Ct.index_workspace members).1.getLast? = some Ct.DbOp.commit) ∧
    ((∃ m ∈ members, m.failure ≠ none) →
      (∃ e, (Ct.index_workspace members).2 = .error e) ∧
      Ct.DbOp.commit ∉ (Ct.index_workspace members).1 ∧
      Ct.DbOp.rollback ∉ (Ct.index_workspace members).1 ∧
      (Ct.runOps (Ct.index_workspace members).1 ⟨init, none⟩).committed = init ∧
      (Ct.runOps (Ct.index_workspace members).1 ⟨init, none⟩).openTx ≠ none) := by
  rw [Ct.index_workspace_eq]
  have hbegin : Ct.DbOp.begin' ∉ Ct.executedOps members := by
    intro hc
    rcases Ct.executedOps_rows_or_commit members _ hc with ⟨r, hr⟩ | hr
    · cases hr
    · cases hr
  have hrollback : Ct.DbOp.rollback ∉ Ct.executedOps members := by
    intro hc
    rcases Ct.executedOps_rows_or_commit members _ hc with ⟨r, hr⟩ | hr
    · cases hr
    · cases hr
  refine ⟨rfl, ?_, ?_, ?_⟩
  · simp [List.count_cons, List.count_eq_zero.2 hbegin]
  · intro hall
    refine ⟨Ct.runResult_ok_of_all_ok members hall, ?_⟩
    have htail := Ct.executedOps_getLast_of_all_ok members hall
    have hne : Ct.executedOps members ≠ [] := by
      intro hc
      rw [hc] at htail
      cases htail
    have : Ct.DbOp.begin' :: Ct.executedOps members = [Ct.DbOp.begin'] ++ Ct.executedOps members := rfl
    rw [this, List.getLast?_append_of_ne_nil _ hne]
    exact htail
  · intro hfail
    obtain ⟨hnc, hrows⟩ := Ct.executedOps_no_commit_of_failure members hfail
    have hrun := Ct.runOps_rows_only (Ct.executedOps members) hrows init []
    have hstep : Ct.runOps (Ct.DbOp.begin' :: Ct.executedOps members) ⟨init, none⟩ =
        Ct.runOps (Ct.executedOps members) ⟨init, some []⟩ := rfl
    refine ⟨Ct.runResult_error_of_failure members hfail, ?_, ?_, ?_, ?_⟩
    · intro hc
      rcases List.mem_cons.1 hc with hh | ht
      · cases hh
      · exact hnc ht
    · intro hc
      rcases List.mem_cons.1 hc with hh | ht
      · cases hh
      · exact hrollback ht
    · rw [hstep, hrun]
    · rw [hstep, hrun]
      simp

/-- C3 witness: the amended theorem evaluated on a one-member success
run and on the two-member run with a failing second member. -/
theorem C3_index_workspace_transaction_witness :
    (Ct.index_workspace [Ct.memberOk]).2 = .ok () ∧
    (Ct.index_workspace [Ct.memberOk]).1.getLast? = some Ct.DbOp.commit ∧
    Ct.DbOp.commit ∉ (Ct.index_workspace [Ct.memberOk, Ct.memberFailing]).1 ∧
    (Ct.runOps (Ct.index_workspace [Ct.memberOk, Ct.memberFailing]).1 ⟨[], none⟩).committed =
      ([] : List Ct.RowOp) := by
  have h1 := (C3_index_workspace_transaction_amended [Ct.memberOk] []).2.2.1 (by decide)
  have h2 := (C3_index_workspace_transaction_amended [Ct.memberOk, Ct.memberFailing] []).2.2.2
    ⟨Ct.memberFailing, by decide, by decide⟩
  exact ⟨h1.1, h1.2, h2.2.1, h2.2.2.2.1⟩

namespace Ct

/- ## ct-indexer: implementation status detection
(Indexer::detect_implementation_status and its use in extract_symbol) -/

/-- `Indexer::detect_implementation_status`, over the file content as a
list of lines (`content.lines()`); `none` models an unreadable file
(`fs::read_to_string` returning `Err`).  Mirrors the source exactly:
`start_line = span.begin.saturating_sub(1)`, `end_line = min(span.end,
lines.len())`, early `Implemented` when `start_line` is past the end,
then substring checks on the joined body text.  (The Rust slice
`lines[start_line..end_line]` would panic if `end_line < start_line`;
the claims only concern well-formed spans, where this cannot happen, and
`List.take` of the difference models the in-bounds behaviour.) -/
def detect_implementation_status (file : Option (List (List Char)))
    (beginLine endLine : Nat) : ImplementationStatus :=
  match file with
  | none => .implemented
  | some lines =>
    let start_line := beginLine - 1
    let end_line := min endLine lines.length
    if start_line ≥ lines.length then .implemented
    else
      let body_text := List.intercalate ['\n'] ((lines.drop start_line).take (end_line - start_line))
      if containsSeq "unimplemented!".data body_text then .unimplemented
      else if containsSeq "todo!".data body_text || containsSeq "TODO".data body_text ||
          containsSeq "FIXME".data body_text then .todo'
      else .implemented

/-- The status stored by `extract_symbol`: only functions and methods
run the detector, every other kind is Implemented. -/
def symbol_status (kind : SymbolKind) (file : Option (List (List Char)))
    (beginLine endLine : Nat) : ImplementationStatus :=
  if kind = .fn' ∨ kind = .method then detect_implementation_status file beginLine endLine
  else .implemented

/-- The body text of a span per the claim: the 1-based inclusive line
range `beginLine..endLine` of the file, joined with newlines. -/
def claimBody (lines : List (List Char)) (beginLine endLine : Nat) : List Char :=
  List.intercalate ['\n'] ((lines.drop (beginLine - 1)).take (endLine + 1 - beginLine))

/-- The classification stated by the claim: `unimplemented!` wins, then
any of `todo!`, `TODO`, `FIXME`, else implemented. -/
def claimClassify (body : List Char) : ImplementationStatus :=
  if containsSeq "unimplemented!".data body then .unimplemented
  else if containsSeq "todo!".data body ∨ containsSeq "TODO".data body ∨
      containsSeq "FIXME".data body then .todo'
  else .implemented

end Ct

/- ## Claim C4 -/

/-- C4: for `fn` and `method` symbols with a well-formed span (1-based,
ordered, inside the file), the stored status is exactly the claimed
classification of the span text; symbols of any other kind are
implemented regardless of the file text; and an unreadable file defaults
to implemented. -/
theorem C4_status_detection (kind : Ct.SymbolKind) (lines : List (List Char))
    (b e : Nat) :
    ((kind = .fn' ∨ kind = .method) → 1 ≤ b → b ≤ e → e ≤ lines.length →
      Ct.symbol_status kind (some lines) b e = Ct.claimClassify (Ct.claimBody lines b e)) ∧
    (¬(kind = .fn' ∨ kind = .method) →
      ∀ file, Ct.symbol_status kind file b e = .implemented) ∧
    (Ct.symbol_status kind none b e = .implemented) := by
  refine ⟨?_, ?_, ?_⟩
  · intro hk hb hbe he
    unfold Ct.symbol_status
    rw [if_pos hk]
    unfold Ct.detect_implementation_status
    have hmin : min e lines.length = e := Nat.min_eq_left he
    have hlt : ¬ (b - 1 ≥ lines.length) := by omega
    simp only [hmin]
    rw [if_neg hlt]
    have harith : e - (b - 1) = e + 1 - b := by omega
    rw [harith]
    unfold Ct.claimClassify Ct.claimBody
    by_cases h1 : Ct.containsSeq "unimplemented!".data
        (List.intercalate ['\n'] ((lines.drop (b - 1)).take (e + 1 - b))) = true
    · rw [if_pos h1, if_pos h1]
    · rw [if_neg h1, if_neg h1]
      by_cases h2 : (Ct.containsSeq "todo!".data
            (List.intercalate ['\n'] ((lines.drop (b - 1)).take (e + 1 - b))) ||
          Ct.containsSeq "TODO".data
            (List.intercalate ['\n'] ((lines.drop (b - 1)).take (e + 1 - b))) ||
          Ct.containsSeq "FIXME".data
            (List.intercalate ['\n'] ((lines.drop (b - 1)).take (e + 1 - b)))) = true
      · rw [if_pos h2, if_pos (by simpa [Bool.or_eq_true, or_assoc] using h2)]
      · rw [if_neg h2, if_neg (by simpa [Bool.or_eq_true, or_assoc] using h2)]
  · intro hk file
    unfold Ct.symbol_status
    rw [if_neg hk]
  · unfold Ct.symbol_status
    split
    · rfl
    · rfl

/-- C4 witness: the theorem evaluated on a two-line function body
containing a todo marker, and on a struct item. -/
theorem C4_status_detection_witness :
    Ct.symbol_status .fn' (some ["fn f()".data, "  todo!()".data]) 1 2 =
      Ct.claimClassify (Ct.claimBody ["fn f()".data, "  todo!()".data] 1 2) ∧
    Ct.symbol_status .struct' (some ["struct S;".data]) 1 1 = .implemented ∧
    Ct.symbol_status .fn' (some ["fn f()".data, "  todo!()".data]) 1 2 = .todo' := by
  refine ⟨?_, ?_, by decide⟩
  · exact (C4_status_detection .fn' ["fn f()".data, "  todo!()".data] 1 2).1
      (Or.inl rfl) (by decide) (by decide) (by decide)
  · exact ((C4_status_detection .struct' ["struct S;".data] 1 1).2.1 (by decide))
      (some ["struct S;".data])

namespace Ct

/- ## ct-indexer: file watcher (src/libs/ct-indexer/src/watcher.rs) -/

/-- A filesystem path as its sequence of components (Rust
`Path::components`), each component the character list of its name. -/
abbrev FsPath := List (List Char)

/-- The characters after the last dot of a file name, when it contains a
dot. -/
def afterLastDot : List Char → Option (List Char)
  | [] => none
  | c :: rest =>
    match afterLastDot rest with
    | some e => some e
    | none => if c = '.' then some rest else none

/-- Rust `Path::extension` on a file name: the part after the last dot;
a name that begins with a dot and has no other dot has no extension. -/
def extensionOf (fileName : List Char) : Option (List Char) :=
  match fileName with
  | '.' :: rest => afterLastDot rest
  | l => afterLastDot l

/-- `is_rust_file` from the watcher: the extension of the last component
equals rs. -/
def is_rust_file (p : FsPath) : Bool :=
  match p.getLast? with
  | none => false
  | some f => extensionOf f == some "rs".data

/-- `is_ignored` from the watcher: some component equals target or
starts with a dot (`starts_with` on one char is a head test). -/
def is_ignored (p : FsPath) : Bool :=
  p.any (fun c => c == "target".data || c.head? == some '.')

/-- The notify event kinds the watcher distinguishes. -/
inductive EventKind where
  | create | modify | remove | access | other
deriving DecidableEq, Repr

/-- A raw filesystem event: a kind and the affected paths. -/
structure RawEvent where
  kind : EventKind
  paths : List FsPath
deriving DecidableEq, Repr

/-- The kinds kept by `collect_changes` (Create, Modify, Remove). -/
def relevantKind : EventKind → Bool
  | .create => true
  | .modify => true
  | .remove => true
  | .access => false
  | .other => false

/-- Path comparison: component-wise, each component byte-wise (the Rust
`PathBuf` ordering used by `Vec::sort`). -/
def fsPathCmp : FsPath → FsPath → Ordering :=
  cmpList (cmpList (cmpOfOrd (α := Char)))

theorem lawful_fsPathCmp : LawfulCmp fsPathCmp :=
  lawful_cmpList (lawful_cmpList lawful_cmpOfOrd)

/-- The sort relation on paths. -/
def fsPathLe (a b : FsPath) : Prop := cmpLe fsPathCmp a b

instance : DecidableRel fsPathLe := fun a b => by
  unfold fsPathLe cmpLe
  infer_instance

instance : IsTotal FsPath fsPathLe :=
  ⟨fun a b => cmpLe_total lawful_fsPathCmp a b⟩

instance : IsTrans FsPath fsPathLe :=
  ⟨fun _ _ _ hab hbc => cmpLe_trans lawful_fsPathCmp hab hbc⟩

/-- Rust `Vec::dedup`: remove consecutive duplicates. -/
def dedupConsec {α : Type} [DecidableEq α] : List α → List α
  | [] => []
  | [a] => [a]
  | a :: b :: rest =>
    if a = b then dedupConsec (b :: rest) else a :: dedupConsec (b :: rest)

/-- `FileWatcher::collect_changes` applied to one debounce window worth
of raw watch results: error results are logged and skipped; events of a
relevant kind contribute the paths passing the rust-file and not-ignored
filters, in arrival order; the collected list is then sorted and its
consecutive duplicates removed. -/
def collect_changes (events : List (Except String RawEvent)) : List FsPath :=
  let changed := (events.filterMap (fun res =>
    match res with
    | .ok ev =>
      if relevantKind ev.kind then
        some (ev.paths.filter (fun p => is_rust_file p && !(is_ignored p)))
      else none
    | .error _ => none)).flatten
  dedupConsec (List.insertionSort fsPathLe changed)

theorem dedupConsec_sublist {α : Type} [DecidableEq α] :
    ∀ l : List α, List.Sublist (dedupConsec l) l
  | [] => List.Sublist.refl _
  | [a] => List.Sublist.refl _
  | a :: b :: rest => by
    unfold dedupConsec
    by_cases h : a = b
    · rw [if_pos h]
      exact List.Sublist.cons a (dedupConsec_sublist (b :: rest))
    · rw [if_neg h]
      exact List.Sublist.cons₂ a (dedupConsec_sublist (b :: rest))

theorem mem_dedupConsec {α : Type} [DecidableEq α] :
    ∀ (l : List α) (x : α), x ∈ dedupConsec l ↔ x ∈ l := by
  intro l
  induction l with
  | nil => intro x; simp [dedupConsec]
  | cons a rest ih =>
    intro x
    cases rest with
    | nil => simp [dedupConsec]
    | cons b rest' =>
      unfold dedupConsec
      by_cases h : a = b
      · rw [if_pos h]
        subst h
        rw [ih x]
        simp only [List.mem_cons]
        tauto
      · rw [if_neg h]
        rw [List.mem_cons, ih x, ← List.mem_cons]

theorem head?_dedupConsec {α : Type} [DecidableEq α] :
    ∀ (l : List α) (a : α), (dedupConsec (a :: l)).head? = some a := by
  intro l
  induction l with
  | nil => intro a; rfl
  | cons b rest ih =>
    intro a
    unfold dedupConsec
    by_cases h : a = b
    · rw [if_pos h, h]
      exact ih b
    · rw [if_neg h]
      rfl

theorem sorted_lt_dedupConsec {α : Type} [DecidableEq α] {cmp : α → α → Ordering}
    (hc : LawfulCmp cmp) :
    ∀ l : List α, List.Sorted (cmpLe cmp) l →
      List.Sorted (fun a b => cmp a b = .lt) (dedupConsec l) := by
  intro l
  induction l with
  | nil => intro _; simp [dedupConsec, List.Sorted]
  | cons a rest ih =>
    intro hs
    cases rest with
    | nil => simp [dedupConsec, List.Sorted]
    | cons b rest' =>
      have hpair := List.pairwise_cons.1 hs
      have hab : cmpLe cmp a b := hpair.1 b (List.mem_cons_self b rest')
      have hsorted_tail := hpair.2
      unfold dedupConsec
      by_cases h : a = b
      · rw [if_pos h]
        exact ih hsorted_tail
      · rw [if_neg h]
        apply List.pairwise_cons.2
        refine ⟨?_, ih hsorted_tail⟩
        intro x hx
        have hxmem : x ∈ b :: rest' := (mem_dedupConsec _ x).1 hx
        have hax : cmpLe cmp a x := by
          rcases List.mem_cons.1 hxmem with rfl | hxr
          · exact hab
          · have hbx : cmpLe cmp b x :=
              (List.pairwise_cons.1 hsorted_tail).1 x hxr
            exact cmpLe_trans hc hab hbx
        have hne : a ≠ x := by
          rcases List.mem_cons.1 hxmem with rfl | hxr
          · exact h
          · intro heq
            subst heq
            have hba : cmpLe cmp b a :=
              (List.pairwise_cons.1 hsorted_tail).1 a hxr
            exact h (cmpLe_antisymm hc hab hba)
        rcases hlt : cmp a x with _ | _ | _
        · rfl
        · exact absurd ((hc.eq_iff a x).1 hlt) hne
        · exact absurd hlt hax

theorem is_rust_file_iff (p : FsPath) :
    is_rust_file p = true ↔
      ∃ f, p.getLast? = some f ∧ extensionOf f = some "rs".data := by
  unfold is_rust_file
  cases hl : p.getLast? with
  | none => simp
  | some f => simp [hl]

theorem is_ignored_eq_false_iff (p : FsPath) :
    is_ignored p = false ↔ ∀ c ∈ p, c ≠ "target".data ∧ c.head? ≠ some '.' := by
  unfold is_ignored
  rw [← Bool.not_eq_true, List.any_eq_true]
  simp only [Bool.or_eq_true, beq_iff_eq]
  push_neg
  rfl

end Ct

/- ## Claim C9 -/

/-- C9: for every batch of raw watch results, the delivered list of
changes contains exactly the paths of create/modify/remove events whose
last component has extension rs and whose components include neither
target nor any dot-leading segment; and the delivered list is sorted
and duplicate-free. -/
theorem C9_collect_changes (events : List (Except String Ct.RawEvent)) :
    (∀ p : Ct.FsPath, p ∈ Ct.collect_changes events ↔
      ∃ ev : Ct.RawEvent, .ok ev ∈ events ∧ Ct.relevantKind ev.kind = true ∧
        p ∈ ev.paths ∧
        (∃ f, p.getLast? = some f ∧ Ct.extensionOf f = some "rs".data) ∧
        (∀ c ∈ p, c ≠ "target".data ∧ c.head? ≠ some '.')) ∧
    List.Sorted Ct.fsPathLe (Ct.collect_changes events) ∧
    (Ct.collect_changes events).Nodup := by
  unfold Ct.collect_changes
  have hsorted_base := List.sorted_insertionSort Ct.fsPathLe
    ((events.filterMap (fun res =>
      match res with
      | .ok ev =>
        if Ct.relevantKind ev.kind then
          some (ev.paths.filter (fun p => Ct.is_rust_file p && !(Ct.is_ignored p)))
        else none
      | .error _ => none)).flatten)
  have hlt := Ct.sorted_lt_dedupConsec Ct.lawful_fsPathCmp _ hsorted_base
  refine ⟨?_, ?_, ?_⟩
  · intro p
    rw [Ct.mem_dedupConsec]
    rw [(List.perm_insertionSort Ct.fsPathLe _).mem_iff]
    rw [List.mem_flatten]
    constructor
    · rintro ⟨l, hl, hpl⟩
      rcases List.mem_filterMap.1 hl with ⟨res, hres, hmap⟩
      cases res with
      | error e => cases hmap
      | ok ev =>
        have hmap' : (if Ct.relevantKind ev.kind = true then
            some (ev.paths.filter (fun p => Ct.is_rust_file p && !(Ct.is_ignored p)))
          else none) = some l := hmap
        by_cases hk : Ct.relevantKind ev.kind = true
        · rw [if_pos hk] at hmap'
          cases hmap'
          have hf := List.mem_filter.1 hpl
          have hrust := hf.2
          rw [Bool.and_eq_true] at hrust
          refine ⟨ev, hres, hk, hf.1, (Ct.is_rust_file_iff p).1 hrust.1, ?_⟩
          rw [← Ct.is_ignored_eq_false_iff]
          have := hrust.2
          simp only [Bool.not_eq_true'] at this
          exact this
        · rw [if_neg hk] at hmap'
          cases hmap' 
    · rintro ⟨ev, hres, hk, hpl, hext, hclean⟩
      refine ⟨ev.paths.filter (fun p => Ct.is_rust_file p && !(Ct.is_ignored p)), ?_, ?_⟩
      · refine List.mem_filterMap.2 ⟨.ok ev, hres, ?_⟩
        show (if Ct.relevantKind ev.kind = true then
            some (ev.paths.filter (fun p => Ct.is_rust_file p && !(Ct.is_ignored p)))
          else none) = _
        rw [if_pos hk]
      · apply List.mem_filter.2
        refine ⟨hpl, ?_⟩
        rw [Bool.and_eq_true]
        refine ⟨(Ct.is_rust_file_iff p).2 hext, ?_⟩
        rw [Bool.not_eq_true']
        exact (Ct.is_ignored_eq_false_iff p).2 hclean
  · have himp : ∀ {a b : Ct.FsPath}, Ct.fsPathCmp a b = .lt → Ct.fsPathLe a b := by
      intro a b hab
      unfold Ct.fsPathLe Ct.cmpLe
      rw [hab]
      simp
    exact hlt.imp himp
  · have hne : ∀ {a b : Ct.FsPath}, Ct.fsPathCmp a b = .lt → a ≠ b := by
      intro a b hab heq
      subst heq
      rw [(Ct.lawful_fsPathCmp.eq_iff a a).2 rfl] at hab
      cases hab
    exact hlt.imp hne

namespace Ct

/- ## ct-protocol (src/libs/ct-protocol/src/lib.rs) -/

/-- `PROTOCOL_VERSION` from ct-protocol. -/
def PROTOCOL_VERSION : Nat := 1

/-- The wire error codes. -/
inductive ErrorCode where
  | invalidArg
  | notFound
  | daemonUnavailable
  | indexMismatch
  | internalError
  | protocolError
deriving DecidableEq, Repr

/-- Response metrics. -/
structure Metrics where
  elapsed_ms : Nat
  bytes : Nat
deriving DecidableEq, Repr

/-- JSON values (`serde_json::Value`; numbers restricted to the integers
the daemon actually emits). -/
inductive Json where
  | null
  | bool' (b : Bool)
  | num (n : Int)
  | str (s : String)
  | arr (items : List Json)
  | obj (fields : List (String × Json))

/-- The protocol commands, with the fields the daemon handlers
destructure (`DaemonState::handle_request`); the ct-protocol enum lags
behind the handler on `find.all` and the reindex filters. -/
inductive Command where
  | find (name path kind vis : Option String) (unimplemented todo all : Option Bool)
  | doc (path : String) (include_docs : Bool) (vis : Option String)
      (unimplemented todo : Option Bool)
  | ls (path : String) (expansion : Option String) (impl_parents include_docs : Bool)
      (vis : Option String) (unimplemented todo : Option Bool)
  | export' (path : String) (bundle : Bool) (expansion : Option String)
      (include_docs : Bool) (vis : Option String) (unimplemented todo : Option Bool)
      (impl_parents with_source : Bool)
  | reindex (features : Option (List String)) (target : Option String)
      (module : Option String) (struct_name : Option String) (include_derives : Bool)
  | status (vis : Option String) (unimplemented todo : Option Bool)
  | diag
  | bench (queries warmup duration : Nat)

/-- The request envelope. -/
structure Request where
  cmd : Command
  request_id : String
  protocol_version : Nat

/-- Success envelope. -/
structure SuccessEnvelope where
  ok : Bool
  request_id : String
  protocol_version : Nat
  data : Json
  truncated : Bool
  metrics : Option Metrics

/-- Decision-required payload. -/
structure DecisionInfo where
  reason : String
  content_len : Nat
  options : List String

/-- Decision-required envelope. -/
structure DecisionEnvelope where
  ok : Bool
  request_id : String
  protocol_version : Nat
  decision_required : DecisionInfo

/-- Error envelope. -/
structure ErrorEnvelope where
  ok : Bool
  request_id : String
  protocol_version : Nat
  err : String
  err_code : ErrorCode

/-- The untagged response union. -/
inductive Response where
  | Success (e : SuccessEnvelope)
  | Decision (e : DecisionEnvelope)
  | Error (e : ErrorEnvelope)

/-- `Response::success`. -/
def Response.success (request_id : String) (data : Json) : Response :=
  .Success
    { ok := true
      request_id := request_id
      protocol_version := PROTOCOL_VERSION
      data := data
      truncated := false
      metrics := none }

/-- `Response::error`. -/
def Response.error (request_id err : String) (err_code : ErrorCode) : Response :=
  .Error
    { ok := false
      request_id := request_id
      protocol_version := PROTOCOL_VERSION
      err := err
      err_code := err_code }

/-- `Response::decision`. -/
def Response.decision (request_id reason : String) (content_len : Nat)
    (options : List String) : Response :=
  .Decision
    { ok := true
      request_id := request_id
      protocol_version := PROTOCOL_VERSION
      decision_required := { reason := reason, content_len := content_len, options := options } }

/-- The error code carried by a response, when it is an error. -/
def Response.errCode : Response → Option ErrorCode
  | .Error e => some e.err_code
  | _ => none

/-- The request id carried by a response envelope. -/
def Response.requestId : Response → String
  | .Success e => e.request_id
  | .Decision e => e.request_id
  | .Error e => e.request_id

/- ## ct-daemon: state and handlers (src/bins/ct-daemon/src/state.rs) -/

/-- The store contents the handlers read (symbols table plus the row
counts `diag` reports). -/
structure Store where
  symbols : List SymbolRow
  crates : Nat
  files : Nat

/-- The daemon state fields the handlers use. -/
structure DaemonState where
  max_list : Nat
  db_path : String
  workspace_fingerprint : String
  last_index_duration_ms : Nat

/-- The environment-provided values (clock, chrono formatting, current
directory, transport rendering) that the handlers fold into responses. -/
structure Env where
  elapsed_ms : Nat
  current_dir : String
  index_timestamp_rfc3339 : String
  transport : String

/-- One query executed against the symbol store, with its parameters. -/
inductive StoreQuery where
  | openDb
  | findByName (name : String) (kind vis status : Option String) (limit : Nat)
  | statusCounts (vis : Option String)
  | statusItems (vis : Option String) (unimplemented todo : Bool) (limit : Nat)
  | countSymbols
  | countCrates
  | countFiles
deriving DecidableEq, Repr

/-- serde serialization of a `Symbol` (field order; `docs` skipped when
absent; enums rendered with their snake-case names). -/
def symbolJson (s : Symbol) : Json :=
  .obj ([("symbol_id", .str s.symbol_id), ("crate_id", .num s.crate_id),
         ("file_id", .num s.file_id), ("path", .str s.path), ("name", .str s.name),
         ("kind", .str s.kind.as_str), ("visibility", .str s.visibility.as_str),
         ("signature", .str s.signature)] ++
    (match s.docs with
     | none => []
     | some d => [("docs", .str d)]) ++
    [("status", .str s.status.as_str), ("span_start", .num (s.span_start : Int)),
     ("span_end", .num (s.span_end : Int)), ("def_hash", .str s.def_hash)])

/-- serde rendering of an optional string (json! maps None to null). -/
def optStrJson : Option String → Json
  | none => .null
  | some s => .str s

/-- `DaemonState::handle_find`: requires name or path; with a name, a
substring query with the status-filter matrix on the two flags; the
`all` flag selects full or reduced item projections.  Returns the
handler result together with the store operations performed. -/
def handle_find (st : DaemonState) (store : Store)
    (name path kind vis : Option String) (unimplemented todo all : Option Bool) :
    Except (String × ErrorCode) Response × List StoreQuery :=
  if name.isNone && path.isNone then
    (.error ("Must provide either name or path", .invalidArg), [])
  else
    match name with
    | some n =>
      let status_filter :=
        match unimplemented, todo with
        | some true, some true => none
        | some true, _ => some "unimplemented"
        | _, some true => some "todo"
        | _, _ => some "implemented"
      let symbols := find_symbols_by_name store.symbols n kind vis status_filter st.max_list
      let items :=
        if all.getD false then symbols.map symbolJson
        else symbols.map (fun s => Json.obj
          [("path", .str s.path), ("span_start", .num (s.span_start : Int)),
           ("span_end", .num (s.span_end : Int))])
      (.ok (Response.success "" (.obj [("items", .arr items)])),
        [StoreQuery.openDb, StoreQuery.findByName n kind vis status_filter st.max_list])
    | none =>
      (.ok (Response.success "" (.obj [("items", .arr [])])), [StoreQuery.openDb])

/-- `DaemonState::handle_doc` (stub in the source). -/
def handle_doc (path : String) (include_docs : Bool) :
    Except (String × ErrorCode) Response × List StoreQuery :=
  (.ok (Response.success "" (.obj [("symbol", .obj
    [("path", .str path), ("signature", .str "pub struct Example"),
     ("docs", if include_docs then .str "Example documentation" else .null)])])), [])

/-- `DaemonState::handle_ls` (stub in the source). -/
def handle_ls : Except (String × ErrorCode) Response × List StoreQuery :=
  (.ok (Response.success "" (.obj [("items", .arr [])])), [])

/-- `DaemonState::handle_export` (stub in the source). -/
def handle_export (path : String) :
    Except (String × ErrorCode) Response × List StoreQuery :=
  (.ok (Response.success "" (.obj [("bundle", .obj
    [("symbol", .obj [("path", .str path), ("kind", .str "struct"),
        ("signature", .str "pub struct Example")]),
     ("children", .arr []), ("extern_refs", .arr []), ("impl_ranges", .arr []),
     ("order", .str "bfs"),
     ("invariants", .obj [("range_1_based_inclusive", .bool' true)])])])), [])

/-- `DaemonState::handle_reindex` (stub in the source). -/
def handle_reindex (module struct_name : Option String) (include_derives : Bool) :
    Except (String × ErrorCode) Response × List StoreQuery :=
  (.ok (Response.success "" (.obj
    [("status", .str "reindex_started"),
     ("filters", .obj [("module", optStrJson module),
        ("struct_name", optStrJson struct_name),
        ("include_derives", .bool' include_derives)])])), [])

/-- serde serialization of `StatusCounts`. -/
def statusCountsJson (c : StatusCounts) : Json :=
  .obj [("total", .num (c.total : Int)), ("implemented", .num (c.implemented : Int)),
        ("unimplemented", .num (c.unimplemented : Int)), ("todo", .num (c.todo : Int))]

/-- serde serialization of a `StatusItem`. -/
def statusItemJson (it : StatusItem) : Json :=
  .obj [("path", .str it.path), ("status", .str it.status.as_str),
        ("kind", .str it.kind.as_str)]

/-- `DaemonState::handle_status`. -/
def handle_status (st : DaemonState) (store : Store)
    (vis : Option String) (unimplemented todo : Option Bool) :
    Except (String × ErrorCode) Response × List StoreQuery :=
  let counts := get_status_counts store.symbols vis
  let items := get_status_items store.symbols vis
    (unimplemented.getD false) (todo.getD false) st.max_list
  (.ok (Response.success "" (.obj
    [("counts", statusCountsJson counts),
     ("items", .arr (items.map statusItemJson))])),
   [StoreQuery.openDb, StoreQuery.statusCounts vis,
    StoreQuery.statusItems vis (unimplemented.getD false) (todo.getD false) st.max_list])

/-- `DaemonState::handle_diag`. -/
def handle_diag (st : DaemonState) (store : Store) (env : Env) :
    Except (String × ErrorCode) Response × List StoreQuery :=
  (.ok (Response.success "" (.obj
    [("db_path", .str st.db_path), ("schema_version", .str "1"),
     ("tool_version", .str "0.1.0"),
     ("protocol_versions_supported", .arr [.num (PROTOCOL_VERSION : Int)]),
     ("workspace_root", .str env.current_dir),
     ("workspace_fingerprint", .str st.workspace_fingerprint),
     ("crate_count", .num (store.crates : Int)),
     ("file_count", .num (store.files : Int)),
     ("symbol_count", .num (store.symbols.length : Int)),
     ("mem_footprint_bytes", .num 0),
     ("last_index_duration_ms", .num (st.last_index_duration_ms : Int)),
     ("index_timestamp", .str env.index_timestamp_rfc3339),
     ("rustc_hash", .str "sha256:unknown"), ("features", .arr []),
     ("target", .str "x86_64-unknown-linux-gnu"), ("daemon_hot", .bool' true),
     ("transport", .str env.transport)])),
   [StoreQuery.openDb, StoreQuery.countSymbols, StoreQuery.countCrates,
    StoreQuery.countFiles])

/-- `DaemonState::handle_bench` (stub in the source). -/
def handle_bench (queries warmup duration : Nat) :
    Except (String × ErrorCode) Response × List StoreQuery :=
  (.ok (Response.success "" (.obj
    [("query_latency_p50_ms", .num 5), ("query_latency_p90_ms", .num 10),
     ("query_latency_p99_ms", .num 20), ("throughput_qps", .num 200),
     ("configuration", .obj [("queries", .num (queries : Int)),
        ("warmup_ms", .num (warmup : Int)), ("duration_s", .num (duration : Int))])])), [])

/-- The dispatch `match` of `DaemonState::handle_request`. -/
def dispatch (st : DaemonState) (store : Store) (env : Env) :
    Command → Except (String × ErrorCode) Response × List StoreQuery
  | .find name path kind vis u t all => handle_find st store name path kind vis u t all
  | .doc path include_docs _vis _u _t => handle_doc path include_docs
  | .ls _path _exp _ip _id _v _u _t => handle_ls
  | .export' path _b _e _i _v _u _t _ip _ws => handle_export path
  | .reindex _features _target module struct_name include_derives =>
    handle_reindex module struct_name include_derives
  | .status vis u t => handle_status st store vis u t
  | .diag => handle_diag st store env
  | .bench q w d => handle_bench q w d

/-- The metrics annotation `handle_request` adds to success envelopes
(`bytes` is left 0 in the source). -/
def attachMetrics (env : Env) : Response → Response
  | .Success e => .Success { e with metrics := some { elapsed_ms := env.elapsed_ms, bytes := 0 } }
  | r => r

/-- `DaemonState::handle_request`: dispatch on the command, annotate
success responses with metrics, turn handler errors into error
envelopes carrying the request id.  The request `protocol_version` is
never consulted.  Returns the response together with the store
operations performed. -/
def handle_request (st : DaemonState) (store : Store) (env : Env) (req : Request) :
    Response × List StoreQuery :=
  let result := dispatch st store env req.cmd
  match result.1 with
  | .ok response => (attachMetrics env response, result.2)
  | .error (msg, code) => (Response.error req.request_id msg code, result.2)

end Ct

namespace Ct

/-- Environment values for the concrete daemon examples. -/
def exampleEnv : Env :=
  { elapsed_ms := 5
    current_dir := "/work"
    index_timestamp_rfc3339 := "2026-10-12T00:00:00+00:00"
    transport := "unix" }

/-- Daemon state for the concrete examples (default config limits). -/
def exampleState : DaemonState :=
  { max_list := 200
    db_path := "/cache/symbols.db"
    workspace_fingerprint := "blake3:abcd"
    last_index_duration_ms := 0 }

/-- A store holding the one indexed example symbol. -/
def exampleStore : Store :=
  { symbols := [symbolRowOf exampleSymbol], crates := 1, files := 1 }

/-- A find request carrying protocol version 2 (the supported version
is 1). -/
def exampleFindReq : Request :=
  { cmd := .find (some "add") none none none none none none
    request_id := "req-42"
    protocol_version := 2 }

/-- A bench request with a non-empty request id. -/
def exampleBenchReq : Request :=
  { cmd := .bench 200 100 5
    request_id := "req-7"
    protocol_version := 1 }

end Ct

/- ## Claim C5 -/

/-- C5: for every find request that carries a name, the handler runs the
substring query with the status filter determined by the two flags
exactly as the claim states: both true gives no filter; unimplemented
true alone filters to unimplemented; todo true alone filters to todo;
in every other case — including both flags absent or false — it filters
to implemented.  The executed store operations are exactly the open and
that one query. -/
theorem C5_find_status_filter_matrix (st : Ct.DaemonState) (store : Ct.Store)
    (n : String) (path kind vis : Option String) (u t all : Option Bool) :
    (Ct.handle_find st store (some n) path kind vis u t all).2 =
      [Ct.StoreQuery.openDb,
       Ct.StoreQuery.findByName n kind vis
         (if u = some true ∧ t = some true then none
          else if u = some true then some "unimplemented"
          else if t = some true then some "todo"
          else some "implemented") st.max_list] := by
  unfold Ct.handle_find
  rcases u with _ | b <;> rcases t with _ | c
  · rfl
  · cases c <;> rfl
  · cases b <;> rfl
  · cases b <;> cases c <;> rfl

/- ## Claim C10 -/

/-- C10: a find request with neither name nor path yields an error
envelope with code INVALID_ARG carrying the request id, and the store
query log is empty — the handler returns before the store is even
opened. -/
theorem C10_find_requires_name_or_path (st : Ct.DaemonState) (store : Ct.Store)
    (env : Ct.Env) (kind vis : Option String) (u t all : Option Bool)
    (id : String) (v : Nat) :
    Ct.handle_request st store env
      { cmd := .find none none kind vis u t all, request_id := id, protocol_version := v } =
      (Ct.Response.Error
        { ok := false
          request_id := id
          protocol_version := Ct.PROTOCOL_VERSION
          err := "Must provide either name or path"
          err_code := .invalidArg }, []) := rfl

/- ## Claim C7 -/

/-- C7 counterexample: a concrete request whose protocol_version is 2
(the supported version is 1).  The claim says the daemon responds with a
PROTOCOL_ERROR envelope and dispatches no handler; instead the request
is dispatched normally — the response is a success envelope and the
store was opened and queried. -/
theorem C7_version_mismatch_counterexample :
    Ct.exampleFindReq.protocol_version ≠ Ct.PROTOCOL_VERSION ∧
    (Ct.handle_request Ct.exampleState Ct.exampleStore Ct.exampleEnv Ct.exampleFindReq).1 =
      .Success
        { ok := true
          request_id := ""
          protocol_version := 1
          data := .obj [("items", .arr [.obj [("path", .str "crate_a::add"),
            ("span_start", .num 1), ("span_end", .num 3)]])]
          truncated := false
          metrics := some { elapsed_ms := 5, bytes := 0 } } ∧
    (Ct.handle_request Ct.exampleState Ct.exampleStore Ct.exampleEnv Ct.exampleFindReq).2 =
      [.openDb, .findByName "add" none none (some "implemented") 200] :=
  ⟨by decide, rfl, rfl⟩

/-- C7 (amended): the daemon never consults the request protocol_version
— a request is handled identically under any version, and no response
ever carries the PROTOCOL_ERROR code from `handle_request` (that code
arises only for undecodable frames in the connection loop). -/
theorem C7_version_ignored_amended (st : Ct.DaemonState) (store : Ct.Store)
    (env : Ct.Env) (cmd : Ct.Command) (id : String) (v v' : Nat) :
    Ct.handle_request st store env { cmd := cmd, request_id := id, protocol_version := v } =
      Ct.handle_request st store env { cmd := cmd, request_id := id, protocol_version := v' } ∧
    (Ct.handle_request st store env
      { cmd := cmd, request_id := id, protocol_version := v }).1.errCode ≠
      some .protocolError := by
  refine ⟨rfl, ?_⟩
  cases cmd with
  | find name path kind vis u t all =>
    unfold Ct.handle_request Ct.dispatch Ct.handle_find
    rcases name with _ | n
    · rcases path with _ | p
      · simp [Ct.Response.error, Ct.Response.errCode]
      · simp [Ct.Response.success, Ct.attachMetrics, Ct.Response.errCode]
    · simp [Ct.Response.success, Ct.attachMetrics, Ct.Response.errCode]
  | doc path inc vis u t =>
    simp [Ct.handle_request, Ct.dispatch, Ct.handle_doc, Ct.Response.success,
      Ct.attachMetrics, Ct.Response.errCode]
  | ls p e ip idoc vv uu tt =>
    simp [Ct.handle_request, Ct.dispatch, Ct.handle_ls, Ct.Response.success,
      Ct.attachMetrics, Ct.Response.errCode]
  | export' p b e i vv uu tt ip ws =>
    simp [Ct.handle_request, Ct.dispatch, Ct.handle_export, Ct.Response.success,
      Ct.attachMetrics, Ct.Response.errCode]
  | reindex f tg m s incd =>
    simp [Ct.handle_request, Ct.dispatch, Ct.handle_reindex, Ct.Response.success,
      Ct.attachMetrics, Ct.Response.errCode]
  | status vv uu tt =>
    simp [Ct.handle_request, Ct.dispatch, Ct.handle_status, Ct.Response.success,
      Ct.attachMetrics, Ct.Response.errCode]
  | diag =>
    simp [Ct.handle_request, Ct.dispatch, Ct.handle_diag, Ct.Response.success,
      Ct.attachMetrics, Ct.Response.errCode]
  | bench q w d =>
    simp [Ct.handle_request, Ct.dispatch, Ct.handle_bench, Ct.Response.success,
      Ct.attachMetrics, Ct.Response.errCode]

/-- C7 witness: the amended theorem at a concrete diag request under
versions 2 and 1. -/
theorem C7_version_ignored_witness :
    Ct.handle_request Ct.exampleState Ct.exampleStore Ct.exampleEnv
      { cmd := .diag, request_id := "id-1", protocol_version := 2 } =
      Ct.handle_request Ct.exampleState Ct.exampleStore Ct.exampleEnv
        { cmd := .diag, request_id := "id-1", protocol_version := 1 } ∧
    (Ct.handle_request Ct.exampleState Ct.exampleStore Ct.exampleEnv
      { cmd := .diag, request_id := "id-1", protocol_version := 2 }).1.errCode ≠
      some .protocolError :=
  C7_version_ignored_amended Ct.exampleState Ct.exampleStore Ct.exampleEnv .diag "id-1" 2 1

/- ## Claim C8 -/

/-- C8: the response to a successfully handled request does not echo the
request id.  At a concrete bench request with id req-7 the success
envelope carries the empty request id: the handlers construct
`Response::success` with an empty id and a comment saying the caller
will fill it in, but `handle_request` only attaches metrics (only the
error path injects `request.request_id`).  The claim (responses echo the
request id) matches the evident intent, so this is a code bug. -/
theorem C8_request_id_not_echoed :
    Ct.exampleBenchReq.request_id = "req-7" ∧
    (Ct.handle_request Ct.exampleState Ct.exampleStore Ct.exampleEnv
      Ct.exampleBenchReq).1.requestId = "" ∧
    ("" : String) ≠ "req-7" :=
  ⟨rfl, rfl, by decide⟩

/- ## Claim C9 witness material -/

namespace Ct

/-- A concrete batch of raw watch results: a modify touching a source
file and a file under target, a watch error, an access event, and a
create touching the same source file again plus a dotted directory. -/
def exampleEvents : List (Except String RawEvent) :=
  [.ok { kind := .modify
         paths := [["src".data, "lib.rs".data], ["target".data, "debug".data, "x.rs".data]] },
   .error "watch overflow",
   .ok { kind := .access, paths := [["src".data, "main.rs".data]] },
   .ok { kind := .create
         paths := [["src".data, "lib.rs".data], [".git".data, "a.rs".data]] }]

end Ct

/-- C9 witness: the watcher theorem evaluated on the concrete batch —
the doubly-reported source file is delivered, and the delivered list is
sorted and duplicate-free. -/
theorem C9_collect_changes_witness :
    ["src".data, "lib.rs".data] ∈ Ct.collect_changes Ct.exampleEvents ∧
    List.Sorted Ct.fsPathLe (Ct.collect_changes Ct.exampleEvents) ∧
    (Ct.collect_changes Ct.exampleEvents).Nodup := by
  obtain ⟨hmem, hsorted, hnodup⟩ := C9_collect_changes Ct.exampleEvents
  refine ⟨?_, hsorted, hnodup⟩
  refine (hmem _).2 ⟨{ kind := .modify
                       paths := [["src".data, "lib.rs".data],
                         ["target".data, "debug".data, "x.rs".data]] },
    by decide, rfl, by decide, ⟨"lib.rs".data, by decide, by decide⟩, by decide⟩
